import Mathlib

/-!
Shallow embedding of the Grid Coder puzzle core (src/main.js, second/"path-first"
variant: the one with the path-first map generator and the IFBLUE_R / IFBLUE_L
conditional commands), together with proofs about the command expander, the
step interpreter and the map generator.

Conventions:
* JS numbers are modelled as `Nat` / `Int`; the heading arithmetic keeps the
  explicit `% 4` of the source.
* The mutable globals (`grid`, `agentState`, `goalPos`) are threaded as an
  explicit `GameState`.
* JS out-of-range array indexing yields `undefined`, which compares unequal to
  every cell-kind string; the grid lookup therefore defaults to `Cell.empty`
  (which is likewise unequal to `"wall"`, `"blue"` and `"goal"`).
* The environment's `Math.random` is modelled as an arbitrary stream
  `r : Nat → Nat` of raw draws; `randInt r k lo hi` clamps draw `k` into
  `[lo, hi]`, matching the spec's "source of uniform random integers in
  [min, max]".
-/

namespace GridCoder

/-- Cell kinds of the grid: the JS strings 'empty' | 'wall' | 'blue' | 'goal'. -/
inductive Cell where
  | empty
  | wall
  | blue
  | goal
deriving DecidableEq, Repr

/-- `grid` is a 2D array, indexed `grid[y][x]` as in the source. -/
abbrev Grid := List (List Cell)

/-- `GRID_SIZE = 5` from the source. -/
def GRID_SIZE : Nat := 5

/-- Read `grid[y][x]`; out-of-range JS indexing gives `undefined`, which every
cell-kind comparison in the source treats the same as a non-matching kind, so
the model defaults to `Cell.empty`. -/
def cellAtN (g : Grid) (x y : Nat) : Cell :=
  (g.getD y []).getD x .empty

/-- Write `grid[y][x] = c` (no-op when out of range, which never happens in the
source: generator coordinates come from `randInt(0, GRID_SIZE-1)`). -/
def gridSet (g : Grid) (x y : Nat) (c : Cell) : Grid :=
  g.set y ((g.getD y []).set x c)

/-- The all-empty 5×5 grid built at the top of `generateRandomMap`. -/
def emptyGrid : Grid :=
  List.replicate GRID_SIZE (List.replicate GRID_SIZE Cell.empty)

/-- Grid lookup with `Int` coordinates, as used by the interpreter.  Committed
agent positions are always in `[0, GRID_SIZE)`, so the negative case is
unreachable in real runs; it defaults to `Cell.empty` like the other
out-of-range reads. -/
def cellAtI (g : Grid) (x y : Int) : Cell :=
  if 0 ≤ x ∧ 0 ≤ y then cellAtN g x.toNat y.toNat else .empty

/-- Authored command tokens: "F" | "L" | "R" | "LOOP2" | "IFBLUE_R" | "IFBLUE_L". -/
inductive Cmd where
  | F
  | L
  | R
  | LOOP2
  | IFBLUE_R
  | IFBLUE_L
deriving DecidableEq, Repr

/-- Step actions.  In the source a step's `action` field is a plain string:
either "NOOP" (trailing LOOP2) or a raw command token (`steps.push({...,
action: next})` pushes the follower token literally, so "LOOP2" itself can
occur as an action, and `performStep` treats it as an unknown token).
"NOOP_COND" is handled by `performStep` although the path-first expander never
emits it (leftover from an earlier variant). -/
inductive Action where
  | F
  | L
  | R
  | LOOP2
  | IFBLUE_R
  | IFBLUE_L
  | NOOP
  | NOOP_COND
deriving DecidableEq, Repr

/-- The action string a command token denotes (the token itself). -/
def Cmd.act : Cmd → Action
  | .F => .F
  | .L => .L
  | .R => .R
  | .LOOP2 => .LOOP2
  | .IFBLUE_R => .IFBLUE_R
  | .IFBLUE_L => .IFBLUE_L

/-- One expanded step: `{ fromIndex, action }` from `expandCommandsForExecution`. -/
structure Step where
  fromIndex : Nat
  action : Action
deriving DecidableEq, Repr

/-- The steps pushed by iteration `i` of the `for` loop of
`expandCommandsForExecution`:
* `LOOP2` with no follower pushes one NOOP step tagged `i`;
* `LOOP2` with follower `next` pushes `{i, next}` twice (lookahead does not
  consume the follower);
* every other command pushes itself tagged `i`. -/
def emitAt (q : List Cmd) (i : Nat) : List Step :=
  match q[i]? with
  | none => []
  | some .LOOP2 =>
    match q[i+1]? with
    | none => [⟨i, .NOOP⟩]
    | some next => [⟨i, next.act⟩, ⟨i, next.act⟩]
  | some cmd => [⟨i, cmd.act⟩]

/-- `expandCommandsForExecution`: the `for (i = 0; i < queue.length; i++)`
loop, concatenating what each iteration pushes. -/
def expandCommandsForExecution (q : List Cmd) : List Step :=
  (List.range q.length).flatMap (emitAt q)

/-- `DIRS` from the source: heading index ↦ unit delta `(dx, dy)`
(0=up, 1=right, 2=down, 3=left).  The display-only `rotation` field is
omitted. -/
def DIRS : List (Int × Int) := [(0, -1), (1, 0), (0, 1), (-1, 0)]

/-- `DIRS[dir]`.  Real headings are always in `[0, 4)` (maintained by `% 4`). -/
def dirDelta (dir : Nat) : Int × Int := DIRS.getD dir (0, 0)

/-- The mutable `agentState` global: `{x, y, dir}`. -/
structure AgentState where
  x : Int
  y : Int
  dir : Nat
deriving DecidableEq, Repr

/-- The globals an execution run reads and writes: the agent, the (run-immutable)
grid, and `goalPos` (used by `endExecutionCheck`). -/
structure GameState where
  agent : AgentState
  grid : Grid
  goalPos : Int × Int
deriving DecidableEq, Repr

/-- Per-step outcome signal.  `performStep` returns a boolean in the source;
the distinct constructors record which overlay/branch fired:
`failOOB`/`failWall` are the two `return false` failure branches of "F",
`success` the goal branch, `cont` is `return true`.  `failExhausted` is the
failure verdict of `endExecutionCheck` after the queue is consumed. -/
inductive Signal where
  | cont
  | failOOB
  | failWall
  | failExhausted
  | success
deriving DecidableEq, Repr

/-- `performStep`: execute one expanded step against the current state,
returning the new state and the halt/continue signal. -/
def performStep (step : Step) (st : GameState) : GameState × Signal :=
  match step.action with
  | .NOOP => (st, .cont)
  | .NOOP_COND => (st, .cont)
  | .IFBLUE_R =>
    if cellAtI st.grid st.agent.x st.agent.y = .blue then
      ({ st with agent := { st.agent with dir := (st.agent.dir + 1) % 4 } }, .cont)
    else
      (st, .cont)
  | .IFBLUE_L =>
    if cellAtI st.grid st.agent.x st.agent.y = .blue then
      ({ st with agent := { st.agent with dir := (st.agent.dir + 3) % 4 } }, .cont)
    else
      (st, .cont)
  | .L => ({ st with agent := { st.agent with dir := (st.agent.dir + 3) % 4 } }, .cont)
  | .R => ({ st with agent := { st.agent with dir := (st.agent.dir + 1) % 4 } }, .cont)
  | .F =>
    let d := dirDelta st.agent.dir
    let nextX := st.agent.x + d.1
    let nextY := st.agent.y + d.2
    if nextX < 0 ∨ (GRID_SIZE : Int) ≤ nextX ∨ nextY < 0 ∨ (GRID_SIZE : Int) ≤ nextY then
      (st, .failOOB)
    else
      let cellType := cellAtI st.grid nextX nextY
      if cellType = .wall then
        (st, .failWall)
      else
        let st' := { st with agent := { st.agent with x := nextX, y := nextY } }
        if cellType = .goal then (st', .success) else (st', .cont)
  | .LOOP2 => (st, .cont)

/-- `endExecutionCheck`: after the queue is consumed, success iff the agent
stands on `goalPos`. -/
def endExecutionCheck (st : GameState) : Signal :=
  if st.agent.x = st.goalPos.1 ∧ st.agent.y = st.goalPos.2 then .success else .failExhausted

/-- The timer loop of `startExecution`: consume steps in order; a non-`cont`
signal clears the timer, so later steps never execute.  (The source then calls
`endExecutionCheck` once more for overlay display; the run's verdict is the
halting signal.)  Exhaustion falls through to `endExecutionCheck`. -/
def runFrom (st : GameState) : List Step → GameState × Signal
  | [] => (st, endExecutionCheck st)
  | step :: rest =>
    let r := performStep step st
    if r.2 = .cont then runFrom r.1 rest else r

/-- `startExecution`: reset the agent to the start (heading right = 1), expand
the queue, report `none` for an empty expansion ("no valid actions"), otherwise
run. -/
def startExecution (g : Grid) (startP goalP : Int × Int) (q : List Cmd) :
    Option (GameState × Signal) :=
  let st : GameState := ⟨⟨startP.1, startP.2, 1⟩, g, goalP⟩
  let steps := expandCommandsForExecution q
  if steps = [] then none else some (runFrom st steps)

/-- Final state after a list of steps, ignoring signals (used to phrase the
"consumed to the end" claim). -/
def stepAll (st : GameState) : List Step → GameState
  | [] => st
  | step :: rest => stepAll (performStep step st).1 rest

/-- Every step of the list signals `cont` when executed in sequence. -/
def allCont (st : GameState) : List Step → Prop
  | [] => True
  | step :: rest => (performStep step st).2 = .cont ∧ allCont (performStep step st).1 rest

/-! ### Map generator (path-first variant) -/

/-- `randInt(min, max)`: draw `k` of the stream `r`, clamped into `[lo, hi]`.
The environment contract (§6 of the design) is a source of uniform random
integers in `[min, max]`; the raw stream is arbitrary. -/
def randInt (r : Nat → Nat) (k lo hi : Nat) : Nat :=
  lo + r k % (hi - lo + 1)

/-- `Math.abs(a.x - b.x) + Math.abs(a.y - b.y)`. -/
def manhattan (a b : Nat × Nat) : Nat :=
  ((a.1 : Int) - (b.1 : Int)).natAbs + ((a.2 : Int) - (b.2 : Int)).natAbs

/-- The goal-resampling `do { ... } while` loop of `generateRandomMap`:
sample `goalPos`, increment `attempts`, break unconditionally once
`attempts > 50`, otherwise loop while the goal equals the start or its
Manhattan distance from the start is `< 6`.

`fuel` counts the remaining permitted re-checks; the top-level call uses
`attempts = 0, fuel = 50`, so `attempts + fuel = 50` throughout and `fuel = 0`
is exactly the `attempts > 50` break.  Returns the chosen goal, the next
stream cursor, and the final value of `attempts`. -/
def pickGoalLoop (r : Nat → Nat) (startP : Nat × Nat) :
    Nat → Nat → Nat → (Nat × Nat) × Nat × Nat
  | k, attempts, 0 =>
    ((randInt r k 0 (GRID_SIZE - 1), randInt r (k+1) 0 (GRID_SIZE - 1)), k + 2, attempts + 1)
  | k, attempts, fuel + 1 =>
    let gx := randInt r k 0 (GRID_SIZE - 1)
    let gy := randInt r (k+1) 0 (GRID_SIZE - 1)
    if (gx = startP.1 ∧ gy = startP.2) ∨ manhattan (gx, gy) startP < 6 then
      pickGoalLoop r startP (k + 2) (attempts + 1) fuel
    else
      ((gx, gy), k + 2, attempts + 1)

/-- Cells strictly between `a` and `b`, walking from `a` towards `b`
(the inner `for` loops of the path expansion). -/
def between (a b : Nat) : List Nat :=
  if a < b then (List.range (b - a - 1)).map (fun t => a + 1 + t)
  else if b < a then (List.range (a - b - 1)).map (fun t => a - 1 - t)
  else []

/-- One segment of the expanded path: push `from`, then the strictly
intermediate cells towards `to` (exclusive), exactly as the expansion loop
does for each consecutive waypoint pair; a non-axis-aligned pair contributes
only `from` (unreachable with these waypoints). -/
def segTo (p q : Nat × Nat) : List (Nat × Nat) :=
  p :: (if p.1 = q.1 then (between p.2 q.2).map (fun y => (p.1, y))
        else if p.2 = q.2 then (between p.1 q.1).map (fun x => (x, p.2))
        else [])

/-- The waypoint list built by `generateSolutionPath` before expansion:
start, the optional bend, the goal (pushed only when the relevant coordinate
differs), then the goal again if it is not already last. -/
def waypoints (startP goalP : Nat × Nat) (horizFirst : Bool) : List (Nat × Nat) :=
  let base :=
    if horizFirst then
      [startP]
        ++ (if goalP.1 ≠ startP.1 then [(goalP.1, startP.2)] else [])
        ++ (if startP.2 ≠ goalP.2 then [(goalP.1, goalP.2)] else [])
    else
      [startP]
        ++ (if goalP.2 ≠ startP.2 then [(startP.1, goalP.2)] else [])
        ++ (if startP.1 ≠ goalP.1 then [(goalP.1, goalP.2)] else [])
  if base.getLastD startP ≠ goalP then base ++ [goalP] else base

/-- `generateSolutionPath`: expand the consecutive waypoint pairs and append
the goal. -/
def generateSolutionPath (startP goalP : Nat × Nat) (horizFirst : Bool) :
    List (Nat × Nat) :=
  let pts := waypoints startP goalP horizFirst
  (pts.zip pts.tail).flatMap (fun pq => segTo pq.1 pq.2) ++ [goalP]

/-- `findCorners`: interior path cells where the incoming direction differs
from the outgoing direction (`(dx1 ≠ 0 ∧ dy2 ≠ 0) ∨ (dy1 ≠ 0 ∧ dx2 ≠ 0)`). -/
def findCorners : List (Nat × Nat) → List (Nat × Nat)
  | p :: c :: n :: rest =>
    (if (c.1 ≠ p.1 ∧ n.2 ≠ c.2) ∨ (c.2 ≠ p.2 ∧ n.1 ≠ c.1) then [c] else [])
      ++ findCorners (c :: n :: rest)
  | _ => []

/-- Swap the elements at positions `i` and `j`
(`[a[i], a[j]] = [a[j], a[i]]`). -/
def swapAt (l : List (Nat × Nat)) (i j : Nat) : List (Nat × Nat) :=
  let vi := l.getD i (0, 0)
  let vj := l.getD j (0, 0)
  (l.set i vj).set j vi

/-- The Fisher–Yates loop of `shuffleArray`, descending from index `i` to 1;
`j = Math.floor(Math.random() * (i + 1))` is modelled as `r k % (i + 1)`.
Returns the shuffled list and the next stream cursor. -/
def shuffleGo (r : Nat → Nat) : Nat → List (Nat × Nat) → Nat → List (Nat × Nat) × Nat
  | k, arr, 0 => (arr, k)
  | k, arr, i + 1 => shuffleGo r (k + 1) (swapAt arr (i + 1) (r k % (i + 2))) i

/-- `shuffleArray` (Fisher–Yates), used to pick the blue corners. -/
def shuffleArray (r : Nat → Nat) (k : Nat) (arr : List (Nat × Nat)) :
    List (Nat × Nat) × Nat :=
  shuffleGo r k arr (arr.length - 1)

/-- The `selectedCorners.forEach` loop: mark each selected corner blue unless
it is the start or the goal. -/
def placeBlue (startP goalP : Nat × Nat) (g : Grid) (corners : List (Nat × Nat)) : Grid :=
  corners.foldl
    (fun g p =>
      if ¬(p.1 = startP.1 ∧ p.2 = startP.2) ∧ ¬(p.1 = goalP.1 ∧ p.2 = goalP.2) then
        gridSet g p.1 p.2 .blue
      else g)
    g

/-- The wall-placement `while (placedWalls < wallCount && wallAttempts < 100)`
loop: sample a cell; if it is off the solution path, not the start, not the
goal and currently empty, mark it wall.  `fuel` is `100 - wallAttempts`. -/
def placeWalls (r : Nat → Nat) (startP goalP : Nat × Nat) (path : List (Nat × Nat))
    (wallCount : Nat) : Nat → Nat → Nat → Grid → Grid
  | _, _, 0, g => g
  | k, placed, fuel + 1, g =>
    if placed < wallCount then
      let x := randInt r k 0 (GRID_SIZE - 1)
      let y := randInt r (k+1) 0 (GRID_SIZE - 1)
      if (x, y) ∉ path ∧ ¬(x = startP.1 ∧ y = startP.2) ∧
          ¬(x = goalP.1 ∧ y = goalP.2) ∧ cellAtN g x y = .empty then
        placeWalls r startP goalP path wallCount (k + 2) (placed + 1) fuel
          (gridSet g x y .wall)
      else
        placeWalls r startP goalP path wallCount (k + 2) placed fuel g
    else g

/-- Result of `generateRandomMap`.  `path` (the local `solutionPath`) and
`goalAttempts` (the local `attempts` counter) are exposed so the generator's
guarantees can be stated about them. -/
structure GenResult where
  grid : Grid
  startPos : Nat × Nat
  goalPos : Nat × Nat
  path : List (Nat × Nat)
  goalAttempts : Nat
deriving DecidableEq, Repr

/-- `generateRandomMap` (path-first variant): fixed start `(0,0)`; bounded
goal resampling; goal cell written; L-shaped solution path; blue cells on a
random subset of the path's corners; walls sampled off the path. -/
def generateRandomMap (r : Nat → Nat) : GenResult :=
  let startP : Nat × Nat := (0, 0)
  let pg := pickGoalLoop r startP 0 0 50
  let goalP := pg.1
  let k := pg.2.1
  let attempts := pg.2.2
  let g0 := gridSet emptyGrid goalP.1 goalP.2 .goal
  let horizFirst := r k % 2 == 1
  let path := generateSolutionPath startP goalP horizFirst
  let corners := findCorners path
  let blueCount := min (randInt r (k + 1) 1 2) corners.length
  let sh := shuffleArray r (k + 2) corners
  let selected := sh.1.take blueCount
  let k2 := sh.2
  let g1 := placeBlue startP goalP g0 selected
  let wallCount := randInt r k2 3 5
  let g2 := placeWalls r startP goalP path wallCount (k2 + 1) 0 100 g1
  ⟨g2, startP, goalP, path, attempts⟩

/-- Generator invariant carried through blue and wall placement: the goal cell
is exactly at `goalP`, the start cell `(0,0)` is neither wall nor blue, and no
solution-path cell is a wall. -/
def MapInv (goalP : Nat × Nat) (path : List (Nat × Nat)) (g : Grid) : Prop :=
  (∀ x y : Nat, cellAtN g x y = .goal ↔ x = goalP.1 ∧ y = goalP.2) ∧
  cellAtN g 0 0 ≠ .wall ∧ cellAtN g 0 0 ≠ .blue ∧
  ∀ p ∈ path, cellAtN g p.1 p.2 ≠ .wall

/-! ### Helper lemmas -/

theorem getD_set_ne {α : Type} :
    ∀ (l : List α) (i j : Nat) (a d : α), i ≠ j → (l.set i a).getD j d = l.getD j d
  | [], _, _, _, _, _ => rfl
  | _ :: _, 0, 0, _, _, h => absurd rfl h
  | _ :: _, 0, _ + 1, _, _, _ => rfl
  | _ :: _, _ + 1, 0, _, _, _ => rfl
  | _ :: xs, i + 1, j + 1, a, d, h =>
    getD_set_ne xs i j a d (fun hij => h (by omega))

theorem getD_set_or {α : Type} :
    ∀ (l : List α) (i j : Nat) (a d : α),
      (l.set i a).getD j d = l.getD j d ∨ (l.set i a).getD j d = a
  | [], _, _, _, _ => Or.inl rfl
  | _ :: _, 0, 0, _, _ => Or.inr rfl
  | _ :: _, 0, _ + 1, _, _ => Or.inl rfl
  | _ :: _, _ + 1, 0, _, _ => Or.inl rfl
  | _ :: xs, i + 1, j + 1, a, d => getD_set_or xs i j a d

theorem getD_set_self {α : Type} :
    ∀ (l : List α) (i : Nat) (a d : α), i < l.length → (l.set i a).getD i d = a
  | [], i, _, _, h => absurd h (by simp)
  | _ :: _, 0, _, _, _ => rfl
  | _ :: xs, i + 1, a, d, h =>
    getD_set_self xs i a d (by simpa using h)

theorem getD_replicate_lt {α : Type} :
    ∀ (n i : Nat) (a d : α), i < n → (List.replicate n a).getD i d = a
  | 0, _, _, _, h => absurd h (by omega)
  | _ + 1, 0, _, _, _ => rfl
  | n + 1, i + 1, a, d, h => getD_replicate_lt n i a d (by omega)

theorem getD_replicate_or {α : Type} :
    ∀ (n i : Nat) (a d : α),
      (List.replicate n a).getD i d = a ∨ (List.replicate n a).getD i d = d
  | 0, _, _, _ => Or.inr rfl
  | _ + 1, 0, _, _ => Or.inl rfl
  | n + 1, i + 1, a, d => getD_replicate_or n i a d

theorem cellAtN_gridSet_ne (g : Grid) (x y xw yw : Nat) (c : Cell)
    (h : x ≠ xw ∨ y ≠ yw) :
    cellAtN (gridSet g xw yw c) x y = cellAtN g x y := by
  unfold cellAtN gridSet
  by_cases hy : y = yw
  · subst hy
    rcases h with h | h
    · rcases getD_set_or g y y ((g.getD y []).set xw c) [] with h2 | h2
      · rw [h2]
      · rw [h2, getD_set_ne _ _ _ _ _ (fun he => h he.symm)]
    · exact absurd rfl h
  · rw [getD_set_ne _ _ _ _ _ (fun he => hy he.symm)]

theorem cellAtN_gridSet_or (g : Grid) (x y xw yw : Nat) (c : Cell) :
    cellAtN (gridSet g xw yw c) x y = cellAtN g x y ∨
    cellAtN (gridSet g xw yw c) x y = c := by
  by_cases hy : y = yw
  · subst hy
    by_cases hx : x = xw
    · subst hx
      unfold cellAtN gridSet
      rcases getD_set_or g y y ((g.getD y []).set x c) [] with h2 | h2
      · rw [h2]; exact Or.inl rfl
      · rw [h2]
        rcases getD_set_or (g.getD y []) x x c .empty with h3 | h3
        · rw [h3]; exact Or.inl rfl
        · rw [h3]; exact Or.inr rfl
    · exact Or.inl (cellAtN_gridSet_ne g x y xw y c (Or.inl hx))
  · exact Or.inl (cellAtN_gridSet_ne g x y xw yw c (Or.inr hy))

theorem cellAtN_gridSet_self (g : Grid) (x y : Nat) (c : Cell)
    (hy : y < g.length) (hx : x < (g.getD y []).length) :
    cellAtN (gridSet g x y c) x y = c := by
  unfold cellAtN gridSet
  rw [getD_set_self g y ((g.getD y []).set x c) [] hy,
    getD_set_self (g.getD y []) x c .empty (by simpa using hx)]

theorem cellAtN_emptyGrid (x y : Nat) : cellAtN emptyGrid x y = .empty := by
  unfold cellAtN emptyGrid GRID_SIZE
  rcases getD_replicate_or 5 y (List.replicate 5 Cell.empty) [] with h | h <;> rw [h]
  · rcases getD_replicate_or 5 x Cell.empty Cell.empty with h2 | h2 <;> rw [h2]
  · rfl

theorem pair_ne_coords {x y a b : Nat} (h : ¬(x = a ∧ y = b)) : x ≠ a ∨ y ≠ b := by
  by_cases hx : x = a
  · exact Or.inr (fun hy => h ⟨hx, hy⟩)
  · exact Or.inl hx

theorem mapInv_init (goalP : Nat × Nat) (path : List (Nat × Nat))
    (h1 : goalP.1 < GRID_SIZE) (h2 : goalP.2 < GRID_SIZE) :
    MapInv goalP path (gridSet emptyGrid goalP.1 goalP.2 .goal) := by
  have hself : cellAtN (gridSet emptyGrid goalP.1 goalP.2 .goal) goalP.1 goalP.2 = .goal := by
    apply cellAtN_gridSet_self
    · simpa [emptyGrid] using h2
    · rw [show emptyGrid.getD goalP.2 [] = List.replicate GRID_SIZE Cell.empty from
        getD_replicate_lt _ _ _ _ h2]
      simpa using h1
  have hor := fun x y => cellAtN_gridSet_or emptyGrid x y goalP.1 goalP.2 .goal
  refine ⟨?_, ?_, ?_, ?_⟩
  · intro x y
    constructor
    · intro hgl
      by_cases hxy : x = goalP.1 ∧ y = goalP.2
      · exact hxy
      · rw [cellAtN_gridSet_ne _ _ _ _ _ _ (pair_ne_coords hxy), cellAtN_emptyGrid] at hgl
        exact absurd hgl (by simp)
    · rintro ⟨hx, hy⟩
      subst hx; subst hy
      exact hself
  · rcases hor 0 0 with h | h <;> rw [h] <;> simp [cellAtN_emptyGrid]
  · rcases hor 0 0 with h | h <;> rw [h] <;> simp [cellAtN_emptyGrid]
  · intro p _
    rcases hor p.1 p.2 with h | h <;> rw [h] <;> simp [cellAtN_emptyGrid]

theorem mapInv_write (goalP : Nat × Nat) (path : List (Nat × Nat)) (g : Grid)
    (x y : Nat) (c : Cell) (h : MapInv goalP path g)
    (hcg : c ≠ .goal)
    (hs : ¬(x = 0 ∧ y = 0))
    (hg : ¬(x = goalP.1 ∧ y = goalP.2))
    (hpath : c = .wall → (x, y) ∉ path) :
    MapInv goalP path (gridSet g x y c) := by
  obtain ⟨hiff, hsw, hsb, hpw⟩ := h
  refine ⟨?_, ?_, ?_, ?_⟩
  · intro a b
    constructor
    · intro hgl
      rcases cellAtN_gridSet_or g a b x y c with h2 | h2
      · exact (hiff a b).mp (h2 ▸ hgl)
      · exact absurd (h2 ▸ hgl).symm (Ne.symm hcg)
    · rintro ⟨ha, hb⟩
      subst ha; subst hb
      have hne : goalP.1 ≠ x ∨ goalP.2 ≠ y := by
        rcases pair_ne_coords hg with h2 | h2
        · exact Or.inl (fun he => h2 he.symm)
        · exact Or.inr (fun he => h2 he.symm)
      rw [cellAtN_gridSet_ne _ _ _ _ _ _ hne]
      exact (hiff goalP.1 goalP.2).mpr ⟨rfl, rfl⟩
  · have hne : (0 : Nat) ≠ x ∨ (0 : Nat) ≠ y := by
      rcases pair_ne_coords hs with h2 | h2
      · exact Or.inl (fun he => h2 he.symm)
      · exact Or.inr (fun he => h2 he.symm)
    rw [cellAtN_gridSet_ne _ _ _ _ _ _ hne]
    exact hsw
  · have hne : (0 : Nat) ≠ x ∨ (0 : Nat) ≠ y := by
      rcases pair_ne_coords hs with h2 | h2
      · exact Or.inl (fun he => h2 he.symm)
      · exact Or.inr (fun he => h2 he.symm)
    rw [cellAtN_gridSet_ne _ _ _ _ _ _ hne]
    exact hsb
  · intro p hp
    by_cases hcw : c = .wall
    · have hne : p.1 ≠ x ∨ p.2 ≠ y := by
        apply pair_ne_coords
        rintro ⟨ha, hb⟩
        exact hpath hcw (by rw [← ha, ← hb]; exact hp)
      rw [cellAtN_gridSet_ne _ _ _ _ _ _ hne]
      exact hpw p hp
    · rcases cellAtN_gridSet_or g p.1 p.2 x y c with h2 | h2
      · rw [h2]; exact hpw p hp
      · rw [h2]; exact hcw

theorem mapInv_placeBlue (goalP : Nat × Nat) (path : List (Nat × Nat)) :
    ∀ (corners : List (Nat × Nat)) (g : Grid), MapInv goalP path g →
      MapInv goalP path (placeBlue (0, 0) goalP g corners)
  | [], _, h => h
  | p :: rest, g, h => by
    have hstep : MapInv goalP path
        (if ¬(p.1 = (0, 0).1 ∧ p.2 = (0, 0).2) ∧ ¬(p.1 = goalP.1 ∧ p.2 = goalP.2) then
          gridSet g p.1 p.2 .blue else g) := by
      split
      · next hc =>
        exact mapInv_write goalP path g p.1 p.2 .blue h (by simp) hc.1 hc.2
          (fun hblue => absurd hblue (by simp))
      · exact h
    simpa [placeBlue, List.foldl_cons] using
      mapInv_placeBlue goalP path rest _ hstep

theorem mapInv_placeWalls (r : Nat → Nat) (goalP : Nat × Nat)
    (path : List (Nat × Nat)) (wc : Nat) :
    ∀ (fuel k placed : Nat) (g : Grid), MapInv goalP path g →
      MapInv goalP path (placeWalls r (0, 0) goalP path wc k placed fuel g)
  | 0, _, _, _, h => by simpa [placeWalls] using h
  | fuel + 1, k, placed, g, h => by
    simp only [placeWalls]
    split
    · split
      · next hc =>
        exact mapInv_placeWalls r goalP path wc fuel _ _ _
          (mapInv_write goalP path g _ _ .wall h (by simp) hc.2.1 hc.2.2.1
            (fun _ => hc.1))
      · exact mapInv_placeWalls r goalP path wc fuel _ _ _ h
    · exact h

theorem pickGoal_lt (r : Nat → Nat) (startP : Nat × Nat) :
    ∀ (fuel k attempts : Nat),
      (pickGoalLoop r startP k attempts fuel).1.1 < GRID_SIZE ∧
      (pickGoalLoop r startP k attempts fuel).1.2 < GRID_SIZE
  | 0, k, attempts => by
    refine ⟨?_, ?_⟩ <;>
      · show 0 + r _ % (GRID_SIZE - 1 - 0 + 1) < GRID_SIZE
        unfold GRID_SIZE
        omega
  | fuel + 1, k, attempts => by
    simp only [pickGoalLoop]
    split
    · exact pickGoal_lt r startP fuel (k + 2) (attempts + 1)
    · refine ⟨?_, ?_⟩ <;>
        · show 0 + r _ % (GRID_SIZE - 1 - 0 + 1) < GRID_SIZE
          unfold GRID_SIZE
          omega

theorem pickGoal_within (r : Nat → Nat) (startP : Nat × Nat) :
    ∀ (fuel k attempts : Nat), attempts + fuel = 50 →
      ∀ res, pickGoalLoop r startP k attempts fuel = res →
        res.2.2 ≤ 50 → res.1 ≠ startP ∧ 6 ≤ manhattan res.1 startP
  | 0, k, attempts, hsum, res, hres, hle => by
    simp only [pickGoalLoop] at hres
    rw [← hres] at hle
    simp at hle
    omega
  | fuel + 1, k, attempts, hsum, res, hres, hle => by
    simp only [pickGoalLoop] at hres
    split at hres
    · exact pickGoal_within r startP fuel (k + 2) (attempts + 1) (by omega) res hres hle
    · next hc =>
      rw [← hres]
      refine ⟨?_, ?_⟩
      · intro heq
        exact hc (Or.inl ⟨congrArg Prod.fst heq, congrArg Prod.snd heq⟩)
      · exact le_of_not_lt (fun hlt => hc (Or.inr hlt))

theorem expand_split (q : List Cmd) (i : Nat) (h : i + 1 < q.length) :
    ∃ pre post, expandCommandsForExecution q =
      pre ++ emitAt q i ++ emitAt q (i + 1) ++ post := by
  obtain ⟨m, hm⟩ : ∃ m, q.length = (i + 2) + m := ⟨q.length - (i + 2), by omega⟩
  refine ⟨(List.range i).flatMap (emitAt q),
    ((List.range m).map (fun t => i + 2 + t)).flatMap (emitAt q), ?_⟩
  rw [expandCommandsForExecution, hm, List.range_add,
    show List.range (i + 2) = List.range (i + 1) ++ [i + 1] from List.range_succ (i + 1),
    show List.range (i + 1) = List.range i ++ [i] from List.range_succ i]
  simp [List.flatMap_append, List.append_assoc]

/-! ### Claims -/

/-- Claim C1: expanding a `RepeatNextTwice` (`LOOP2`) command that has a
following command emits that following command's action twice, both tagged
with the `LOOP2` command's own index, and the following command is still
expanded independently on its own iteration (its emission `emitAt q (i+1)`
appears right after the two copies); in particular
`expand([LOOP2, F]) = [F@0, F@0, F@1]`. -/
theorem c1_repeat_duplicates_follower :
    (∀ (q : List Cmd) (i : Nat) (c : Cmd),
      q[i]? = some .LOOP2 → q[i+1]? = some c →
        emitAt q i = [⟨i, c.act⟩, ⟨i, c.act⟩] ∧
        ∃ pre post, expandCommandsForExecution q =
          pre ++ [⟨i, c.act⟩, ⟨i, c.act⟩] ++ emitAt q (i + 1) ++ post) ∧
    expandCommandsForExecution [.LOOP2, .F] =
      [⟨0, .F⟩, ⟨0, .F⟩, ⟨1, .F⟩] := by
  refine ⟨?_, by decide⟩
  intro q i c h1 h2
  have hemit : emitAt q i = [⟨i, c.act⟩, ⟨i, c.act⟩] := by
    simp [emitAt, h1, h2]
  refine ⟨hemit, ?_⟩
  obtain ⟨pre, post, hsplit⟩ :=
    expand_split q i (List.getElem?_eq_some.mp h2).1
  exact ⟨pre, post, by rw [hsplit, hemit]⟩

/-- Witness for C1 at the concrete queue `[LOOP2, F]`. -/
theorem c1_repeat_duplicates_follower_witness :
    emitAt [Cmd.LOOP2, Cmd.F] 0 = [⟨0, .F⟩, ⟨0, .F⟩] :=
  (c1_repeat_duplicates_follower.1 [Cmd.LOOP2, Cmd.F] 0 Cmd.F rfl rfl).1

/-- Counterexample to claim C4 as stated: a queue ending in a conditional
command with no following command does NOT expand to a NoOp — the path-first
expander emits the conditional's own action without any lookahead, so
`expand([IFBLUE_R])` contains no NoOp step at index 0. -/
theorem c4_counterexample_trailing_conditional :
    Step.mk 0 Action.NOOP ∉ expandCommandsForExecution [Cmd.IFBLUE_R] := by
  decide

/-- Claim C4 (amended): a queue whose last element is `LOOP2` with no
following command expands it to a NoOp tagged at that index (and the
expander, being a total function, never throws); a trailing conditional
command instead expands to its own conditional action at that index, since
conditionals take no lookahead in this variant. -/
theorem c4_trailing_modifier_noop :
    (∀ (q : List Cmd) (i : Nat),
      q[i]? = some .LOOP2 → q[i+1]? = none → emitAt q i = [⟨i, .NOOP⟩]) ∧
    expandCommandsForExecution [.LOOP2] = [⟨0, .NOOP⟩] ∧
    expandCommandsForExecution [.IFBLUE_R] = [⟨0, .IFBLUE_R⟩] ∧
    expandCommandsForExecution [.IFBLUE_L] = [⟨0, .IFBLUE_L⟩] := by
  refine ⟨?_, by decide, by decide, by decide⟩
  intro q i h1 h2
  simp [emitAt, h1, h2]

/-- Witness for the amended C4 at the concrete queue `[LOOP2]`. -/
theorem c4_trailing_modifier_noop_witness :
    emitAt [Cmd.LOOP2] 0 = [⟨0, .NOOP⟩] :=
  c4_trailing_modifier_noop.1 [Cmd.LOOP2] 0 rfl rfl

/-- Claim C2: a Forward step whose candidate position is outside `[0, GRID_SIZE)`
on either axis, or whose in-bounds candidate cell is a Wall, halts the run with
the corresponding failure signal and returns the state completely unchanged
(position and heading included); the remaining steps are never executed. -/
theorem c2_forward_blocked_state_unchanged (st : GameState) (i : Nat)
    (rest : List Step) (_hdir : st.agent.dir < 4) :
    ((st.agent.x + (dirDelta st.agent.dir).1 < 0 ∨
      (GRID_SIZE : Int) ≤ st.agent.x + (dirDelta st.agent.dir).1 ∨
      st.agent.y + (dirDelta st.agent.dir).2 < 0 ∨
      (GRID_SIZE : Int) ≤ st.agent.y + (dirDelta st.agent.dir).2) →
      performStep ⟨i, .F⟩ st = (st, .failOOB) ∧
      runFrom st (⟨i, .F⟩ :: rest) = (st, .failOOB)) ∧
    (¬(st.agent.x + (dirDelta st.agent.dir).1 < 0 ∨
      (GRID_SIZE : Int) ≤ st.agent.x + (dirDelta st.agent.dir).1 ∨
      st.agent.y + (dirDelta st.agent.dir).2 < 0 ∨
      (GRID_SIZE : Int) ≤ st.agent.y + (dirDelta st.agent.dir).2) →
      cellAtI st.grid (st.agent.x + (dirDelta st.agent.dir).1)
        (st.agent.y + (dirDelta st.agent.dir).2) = .wall →
      performStep ⟨i, .F⟩ st = (st, .failWall) ∧
      runFrom st (⟨i, .F⟩ :: rest) = (st, .failWall)) := by
  constructor
  · intro hoob
    have hp : performStep ⟨i, .F⟩ st = (st, .failOOB) := by
      simp only [performStep]
      rw [if_pos hoob]
    exact ⟨hp, by simp [runFrom, hp]⟩
  · intro hin hwall
    have hp : performStep ⟨i, .F⟩ st = (st, .failWall) := by
      simp only [performStep]
      rw [if_neg hin, if_pos hwall]
    exact ⟨hp, by simp [runFrom, hp]⟩

/-- Witness for C2: the spec's boundary example (agent at `(0,0)` heading Up,
Forward) and a wall directly to the right of the start. -/
theorem c2_forward_blocked_state_unchanged_witness :
    (performStep ⟨0, .F⟩ ⟨⟨0, 0, 0⟩, emptyGrid, (4, 4)⟩ =
      (⟨⟨0, 0, 0⟩, emptyGrid, (4, 4)⟩, .failOOB) ∧
     runFrom ⟨⟨0, 0, 0⟩, emptyGrid, (4, 4)⟩ [⟨0, .F⟩] =
      (⟨⟨0, 0, 0⟩, emptyGrid, (4, 4)⟩, .failOOB)) ∧
    (performStep ⟨0, .F⟩ ⟨⟨0, 0, 1⟩, gridSet emptyGrid 1 0 .wall, (4, 4)⟩ =
      (⟨⟨0, 0, 1⟩, gridSet emptyGrid 1 0 .wall, (4, 4)⟩, .failWall) ∧
     runFrom ⟨⟨0, 0, 1⟩, gridSet emptyGrid 1 0 .wall, (4, 4)⟩ [⟨0, .F⟩] =
      (⟨⟨0, 0, 1⟩, gridSet emptyGrid 1 0 .wall, (4, 4)⟩, .failWall)) :=
  ⟨(c2_forward_blocked_state_unchanged ⟨⟨0, 0, 0⟩, emptyGrid, (4, 4)⟩ 0 []
      (by decide)).1 (by decide),
   (c2_forward_blocked_state_unchanged ⟨⟨0, 0, 1⟩, gridSet emptyGrid 1 0 .wall, (4, 4)⟩
      0 [] (by decide)).2 (by decide) (by decide)⟩

/-- Claim C3: a Forward step whose in-bounds candidate cell is the Goal commits
the candidate position to the agent state and immediately halts with success;
no step after it in the sequence is ever executed (the run result does not
depend on `rest`). -/
theorem c3_forward_goal_halts_success (st : GameState) (i : Nat)
    (rest : List Step) (_hdir : st.agent.dir < 4)
    (hin : ¬(st.agent.x + (dirDelta st.agent.dir).1 < 0 ∨
      (GRID_SIZE : Int) ≤ st.agent.x + (dirDelta st.agent.dir).1 ∨
      st.agent.y + (dirDelta st.agent.dir).2 < 0 ∨
      (GRID_SIZE : Int) ≤ st.agent.y + (dirDelta st.agent.dir).2))
    (hgoal : cellAtI st.grid (st.agent.x + (dirDelta st.agent.dir).1)
      (st.agent.y + (dirDelta st.agent.dir).2) = .goal) :
    performStep ⟨i, .F⟩ st =
      ({ st with agent := { st.agent with
          x := st.agent.x + (dirDelta st.agent.dir).1,
          y := st.agent.y + (dirDelta st.agent.dir).2 } }, .success) ∧
    runFrom st (⟨i, .F⟩ :: rest) =
      ({ st with agent := { st.agent with
          x := st.agent.x + (dirDelta st.agent.dir).1,
          y := st.agent.y + (dirDelta st.agent.dir).2 } }, .success) := by
  have hp : performStep ⟨i, .F⟩ st =
      ({ st with agent := { st.agent with
          x := st.agent.x + (dirDelta st.agent.dir).1,
          y := st.agent.y + (dirDelta st.agent.dir).2 } }, .success) := by
    simp only [performStep]
    rw [if_neg hin, hgoal]
    simp
  exact ⟨hp, by simp [runFrom, hp]⟩

/-- Witness for C3: the spec's mid-sequence goal example — Forward reaches the
Goal at `(1,0)` and the queued `[TurnRight, Forward]` tail never runs. -/
theorem c3_forward_goal_halts_success_witness :
    performStep ⟨0, .F⟩ ⟨⟨0, 0, 1⟩, gridSet emptyGrid 1 0 .goal, (1, 0)⟩ =
      (⟨⟨1, 0, 1⟩, gridSet emptyGrid 1 0 .goal, (1, 0)⟩, .success) ∧
    runFrom ⟨⟨0, 0, 1⟩, gridSet emptyGrid 1 0 .goal, (1, 0)⟩
        [⟨0, .F⟩, ⟨1, .R⟩, ⟨2, .F⟩] =
      (⟨⟨1, 0, 1⟩, gridSet emptyGrid 1 0 .goal, (1, 0)⟩, .success) := by
  simpa using c3_forward_goal_halts_success
    ⟨⟨0, 0, 1⟩, gridSet emptyGrid 1 0 .goal, (1, 0)⟩ 0 [⟨1, .R⟩, ⟨2, .F⟩]
    (by decide) (by decide) (by decide)

/-- Claim C5: `IFBLUE_R` on a Blue cell turns right (`(dir + 1) % 4`),
`IFBLUE_L` on a Blue cell turns left (`(dir + 3) % 4`); on a non-Blue cell
both leave the heading unchanged; in all four cases the position is unchanged
and the signal is `cont` (the run never halts on a conditional). -/
theorem c5_conditional_turns (st : GameState) (i : Nat) :
    (cellAtI st.grid st.agent.x st.agent.y = .blue →
      performStep ⟨i, .IFBLUE_R⟩ st =
        ({ st with agent := { st.agent with dir := (st.agent.dir + 1) % 4 } }, .cont) ∧
      performStep ⟨i, .IFBLUE_L⟩ st =
        ({ st with agent := { st.agent with dir := (st.agent.dir + 3) % 4 } }, .cont)) ∧
    (cellAtI st.grid st.agent.x st.agent.y ≠ .blue →
      performStep ⟨i, .IFBLUE_R⟩ st = (st, .cont) ∧
      performStep ⟨i, .IFBLUE_L⟩ st = (st, .cont)) := by
  constructor
  · intro h
    constructor <;> simp [performStep, h]
  · intro h
    constructor <;> simp [performStep, h]

/-- Witness for C5: the conditional on a Blue start cell turns, on an empty
grid it does not. -/
theorem c5_conditional_turns_witness :
    performStep ⟨0, .IFBLUE_R⟩ ⟨⟨0, 0, 1⟩, gridSet emptyGrid 0 0 .blue, (4, 4)⟩ =
      (⟨⟨0, 0, 2⟩, gridSet emptyGrid 0 0 .blue, (4, 4)⟩, .cont) ∧
    performStep ⟨0, .IFBLUE_R⟩ ⟨⟨0, 0, 1⟩, emptyGrid, (4, 4)⟩ =
      (⟨⟨0, 0, 1⟩, emptyGrid, (4, 4)⟩, .cont) := by
  refine ⟨?_, ?_⟩
  · simpa using
      ((c5_conditional_turns ⟨⟨0, 0, 1⟩, gridSet emptyGrid 0 0 .blue, (4, 4)⟩ 0).1
        (by decide)).1
  · exact ((c5_conditional_turns ⟨⟨0, 0, 1⟩, emptyGrid, (4, 4)⟩ 0).2 (by decide)).1

/-- Claim C6: `TurnLeft` sets the heading to `(dir + 3) % 4` and `TurnRight`
to `(dir + 1) % 4`; both leave the position unchanged and continue. -/
theorem c6_turn_semantics (st : GameState) (i : Nat) :
    performStep ⟨i, .L⟩ st =
      ({ st with agent := { st.agent with dir := (st.agent.dir + 3) % 4 } }, .cont) ∧
    performStep ⟨i, .R⟩ st =
      ({ st with agent := { st.agent with dir := (st.agent.dir + 1) % 4 } }, .cont) :=
  ⟨rfl, rfl⟩

/-- Claim C7: a run whose steps are all consumed with `cont` signals ends with
`endExecutionCheck`'s verdict: `success` exactly when the final position
equals `goalPos`, and `failExhausted` otherwise. -/
theorem c7_exhaustion_verdict :
    ∀ (steps : List Step) (st : GameState), allCont st steps →
      runFrom st steps = (stepAll st steps,
        if (stepAll st steps).agent.x = (stepAll st steps).goalPos.1 ∧
            (stepAll st steps).agent.y = (stepAll st steps).goalPos.2
        then .success else .failExhausted)
  | [], st, _ => rfl
  | s :: rest, st, h => by
    have h1 : (performStep s st).2 = .cont := h.1
    have h2 : allCont (performStep s st).1 rest := h.2
    simp only [runFrom]
    rw [if_pos h1]
    exact c7_exhaustion_verdict rest (performStep s st).1 h2

/-- Witness for C7: a single turn leaves the agent on the start, which here is
also the goal, giving success; the same turn with a different goal gives
`failExhausted`. -/
theorem c7_exhaustion_verdict_witness :
    runFrom ⟨⟨0, 0, 1⟩, emptyGrid, (0, 0)⟩ [⟨0, .R⟩] =
      (⟨⟨0, 0, 2⟩, emptyGrid, (0, 0)⟩, .success) ∧
    runFrom ⟨⟨0, 0, 1⟩, emptyGrid, (4, 4)⟩ [⟨0, .R⟩] =
      (⟨⟨0, 0, 2⟩, emptyGrid, (4, 4)⟩, .failExhausted) := by
  refine ⟨?_, ?_⟩
  · simpa using c7_exhaustion_verdict [⟨0, .R⟩] ⟨⟨0, 0, 1⟩, emptyGrid, (0, 0)⟩
      ⟨rfl, trivial⟩
  · simpa using c7_exhaustion_verdict [⟨0, .R⟩] ⟨⟨0, 0, 1⟩, emptyGrid, (4, 4)⟩
      ⟨rfl, trivial⟩

/-- Claim C10 (frame conditions of a single step): the agent's position changes
only for a Forward action (every other action, the NoOps and the unknown raw
`LOOP2` token included, keeps `x` and `y`); a Forward never changes the
heading; and no step ever changes the grid. -/
theorem c10_frame_conditions :
    (∀ (s : Step) (st : GameState), s.action ≠ .F →
      (performStep s st).1.agent.x = st.agent.x ∧
      (performStep s st).1.agent.y = st.agent.y) ∧
    (∀ (i : Nat) (st : GameState),
      (performStep ⟨i, .F⟩ st).1.agent.dir = st.agent.dir) ∧
    (∀ (s : Step) (st : GameState), (performStep s st).1.grid = st.grid) := by
  refine ⟨?_, ?_, ?_⟩
  · rintro ⟨i, a⟩ st hne
    cases a
    case F => exact absurd rfl hne
    all_goals
      simp only [performStep]
      first
      | exact ⟨trivial, trivial⟩
      | exact ⟨rfl, rfl⟩
      | (split <;> exact ⟨rfl, rfl⟩)
  · intro i st
    simp only [performStep]
    split
    · rfl
    · split
      · rfl
      · split <;> rfl
  · rintro ⟨i, a⟩ st
    cases a <;> simp only [performStep] <;> (repeat' split) <;> rfl

/-- Claim C8: every grid produced by the path-first map generator has its Goal
cell exactly at the returned goal position (hence exactly one Goal cell), the
start cell `(0,0)` is never Wall or Blue, and no cell of the generated
solution path is a Wall — for every stream of random draws. -/
theorem c8_generator_invariants (r : Nat → Nat) :
    (∀ x y : Nat, cellAtN (generateRandomMap r).grid x y = .goal ↔
      x = (generateRandomMap r).goalPos.1 ∧ y = (generateRandomMap r).goalPos.2) ∧
    cellAtN (generateRandomMap r).grid 0 0 ≠ .wall ∧
    cellAtN (generateRandomMap r).grid 0 0 ≠ .blue ∧
    ∀ p ∈ (generateRandomMap r).path,
      cellAtN (generateRandomMap r).grid p.1 p.2 ≠ .wall := by
  have key : ∀ (goalP : Nat × Nat), goalP.1 < GRID_SIZE → goalP.2 < GRID_SIZE →
      ∀ (path corners : List (Nat × Nat)) (wc k2 : Nat),
        MapInv goalP path
          (placeWalls r (0, 0) goalP path wc k2 0 100
            (placeBlue (0, 0) goalP (gridSet emptyGrid goalP.1 goalP.2 .goal) corners)) :=
    fun goalP h1 h2 path corners wc k2 =>
      mapInv_placeWalls r goalP path wc 100 k2 0 _
        (mapInv_placeBlue goalP path corners _ (mapInv_init goalP path h1 h2))
  have hlt := pickGoal_lt r (0, 0) 50 0 0
  exact key (pickGoalLoop r (0, 0) 0 0 50).1 hlt.1 hlt.2 _ _ _ _

/-- Witness for C8 at the all-zero draw stream: the produced grid's cell
`(0,0)` (which is this stream's goal position) is the Goal and is not Blue. -/
theorem c8_generator_invariants_witness :
    cellAtN (generateRandomMap (fun _ => 0)).grid 0 0 = Cell.goal ∧
    cellAtN (generateRandomMap (fun _ => 0)).grid 0 0 ≠ Cell.blue :=
  ⟨((c8_generator_invariants (fun _ => 0)).1 0 0).mpr (by decide),
   (c8_generator_invariants (fun _ => 0)).2.2.1⟩

/-- Counterexample to claim C9 as stated: the generator does NOT always pick a
Goal distinct from Start — on the all-zero draw stream every sample is
`(0,0)`, the `do/while` loop breaks after attempt 51 and accepts the last
sample, so the returned goal equals the start. -/
theorem c9_counterexample_goal_equals_start :
    (generateRandomMap (fun _ => 0)).goalPos =
      (generateRandomMap (fun _ => 0)).startPos ∧
    (generateRandomMap (fun _ => 0)).goalAttempts = 51 := by
  decide

/-- Claim C9 (amended): whenever the goal-resampling loop terminates within
the 50-attempt bound, the chosen Goal is distinct from Start and its Manhattan
distance from Start is at least 6; when the bound is exhausted the last sample
is accepted as-is, and it may even coincide with Start. -/
theorem c9_goal_distance_within_bound (r : Nat → Nat)
    (h : (generateRandomMap r).goalAttempts ≤ 50) :
    (generateRandomMap r).goalPos ≠ (generateRandomMap r).startPos ∧
    6 ≤ manhattan (generateRandomMap r).goalPos (generateRandomMap r).startPos :=
  pickGoal_within r (0, 0) 50 0 0 rfl (pickGoalLoop r (0, 0) 0 0 50) rfl h

/-- Witness for the amended C9 at a draw stream whose resampling succeeds on
the second attempt. -/
theorem c9_goal_distance_within_bound_witness :
    (generateRandomMap (fun n => n * 7 + 3)).goalPos ≠
      (generateRandomMap (fun n => n * 7 + 3)).startPos ∧
    6 ≤ manhattan (generateRandomMap (fun n => n * 7 + 3)).goalPos
      (generateRandomMap (fun n => n * 7 + 3)).startPos :=
  c9_goal_distance_within_bound (fun n => n * 7 + 3) (by decide)

/-- Witness for C10 at a concrete state: a turn keeps the position, a Forward
keeps the heading, and the grid is untouched. -/
theorem c10_frame_conditions_witness :
    (performStep ⟨0, .L⟩ ⟨⟨0, 0, 1⟩, emptyGrid, (4, 4)⟩).1.agent.x = 0 ∧
    (performStep ⟨0, .F⟩ ⟨⟨0, 0, 1⟩, emptyGrid, (4, 4)⟩).1.agent.dir = 1 ∧
    (performStep ⟨0, .L⟩ ⟨⟨0, 0, 1⟩, emptyGrid, (4, 4)⟩).1.grid = emptyGrid :=
  ⟨(c10_frame_conditions.1 ⟨0, .L⟩ ⟨⟨0, 0, 1⟩, emptyGrid, (4, 4)⟩ (by decide)).1,
   c10_frame_conditions.2.1 0 ⟨⟨0, 0, 1⟩, emptyGrid, (4, 4)⟩,
   c10_frame_conditions.2.2 ⟨0, .L⟩ ⟨⟨0, 0, 1⟩, emptyGrid, (4, 4)⟩⟩

end GridCoder
